import Mathlib

/-!
Verification of the enterprise-catalog service: a shallow embedding of the
catalog data model, the catalog diff / containment resolution logic, and the
role- and tenant-scoped authorization layer, together with theorems settling
the specification claims about them.

The repository sources available here contain the API test suite, URL routing
and admin registration; the view and model modules they exercise
(enterprise_catalog/apps/api/v1/views/*, enterprise_catalog/apps/catalog/models.py)
are not present, so the operations below are modelled from the specification,
faithful to its description of the membership, diff and authorization logic.
-/

/-- Modelled from the spec: the stored query that defines an enterprise
catalog (`CatalogQuery` in enterprise_catalog/apps/catalog/models.py, not
present in the sources).  Only its identity matters for the claims. -/
structure CatalogQuery where
  id : Nat
deriving DecidableEq

/-- Modelled from the spec: a record of the external content index
(`ContentMetadata` in enterprise_catalog/apps/catalog/models.py, not present
in the sources).  `content_key` identifies the course, course run or program;
`parent_content_key` points one level up the program → course → course run
hierarchy; `course_run_keys` lists the keys of the course runs stored under a
course record (the `course_runs` entries of its json metadata); `modified` is
the record's last-modification time. -/
structure ContentMetadata where
  content_key : String
  parent_content_key : Option String
  course_run_keys : List String
  modified : Nat
deriving DecidableEq

/-- Modelled from the spec: a per-enterprise catalog (`EnterpriseCatalog` in
enterprise_catalog/apps/catalog/models.py, not present in the sources).
`content` is the curated subset of the content index currently associated to
the catalog through its query; a catalog whose `catalog_query` is `none`
contains nothing. -/
structure EnterpriseCatalog where
  uuid : Nat
  enterprise_uuid : Nat
  title : String
  catalog_query : Option CatalogQuery
  content : List ContentMetadata
  enabled_course_modes : List String
  publish_audit_enrollment_urls : Bool
  modified : Nat
deriving DecidableEq

/-- The content keys directly associated with a catalog. -/
def catalogKeys (c : EnterpriseCatalog) : List String :=
  c.content.map ContentMetadata.content_key

/-- An entry of the `items_found` bucket of a catalog diff: a matched content
key together with the reconciled `date_updated` timestamp. -/
structure DiffItemFound where
  content_key : String
  date_updated : Nat
deriving DecidableEq

/-- The three-way reconciliation result of the `generate_diff` endpoint. -/
structure DiffResult where
  items_found : List DiffItemFound
  items_not_found : List String
  items_not_included : List String
deriving DecidableEq

/-- Modelled from the spec: the `date_updated` of a matched content key is the
most recent of the three modification times involved — the catalog's, the
enterprise customer record's, and the content record's. -/
def matchedDateUpdated (catalog_modified customer_modified content_modified : Nat) : Nat :=
  max catalog_modified (max customer_modified content_modified)

/-- Modelled from the spec: the diff resolution of the `generate_diff`
endpoint (`EnterpriseCatalogDiff` view, not present in the sources).  Given a
catalog, the customer record's modification time and a list of requested
content keys, it reconciles three-way state: requested keys present in the
catalog land in `items_found` (with the reconciled `date_updated`), requested
keys absent from the catalog land in `items_not_found`, and catalog keys that
were not requested land in `items_not_included`. -/
def generate_diff (c : EnterpriseCatalog) (customer_modified : Nat)
    (content_keys : List String) : DiffResult :=
  { items_found :=
      (c.content.filter (fun m => decide (m.content_key ∈ content_keys))).map
        (fun m => ⟨m.content_key, matchedDateUpdated c.modified customer_modified m.modified⟩),
    items_not_found := content_keys.filter (fun k => decide (k ∉ catalogKeys c)),
    items_not_included := (catalogKeys c).filter (fun k => decide (k ∉ content_keys)) }

/-- The maximum number of content keys accepted by a GET request to
`generate_diff`. -/
def GENERATE_DIFF_GET_MAX_KEYS : Nat := 100

/-- Modelled from the spec: the GET entry point of the `generate_diff`
endpoint rejects requests carrying more than 100 content keys with an HTTP
400 error, and otherwise behaves as the POST diff resolution. -/
def generate_diff_get (c : EnterpriseCatalog) (customer_modified : Nat)
    (content_keys : List String) : Except String DiffResult :=
  if GENERATE_DIFF_GET_MAX_KEYS < content_keys.length then
    Except.error "catalog_diff GET requests supports up to 100. If more content keys required, please use a POST body."
  else
    Except.ok (generate_diff c customer_modified content_keys)

/-- Modelled from the spec: whether a single catalog content record makes a
requested key count as included, by walking the parent/child hierarchy — the
record is the requested content itself, the requested key is the record's
parent, or the requested key is a course run listed under the record. -/
def contentIncludesKey (m : ContentMetadata) (key : String) : Bool :=
  m.content_key == key || m.parent_content_key == some key || m.course_run_keys.contains key

/-- Modelled from the spec: the per-key containment resolution of the catalog
`contains_content_items` endpoint (`EnterpriseCatalogContainsContentItems`
view, not present in the sources).  A catalog with no associated catalog query
contains nothing; otherwise a key is contained when some content record of the
catalog includes it via the hierarchy walk. -/
def catalog_contains_key (c : EnterpriseCatalog) (key : String) : Bool :=
  c.catalog_query.isSome && c.content.any (fun m => contentIncludesKey m key)

/-- Modelled from the spec: the catalog-level `contains_content_items` answer
for a whole request — every requested key must be contained. -/
def contains_content_items (c : EnterpriseCatalog) (keys : List String) : Bool :=
  keys.all (catalog_contains_key c)

/-- The outcome of an API request: a successful body, an HTTP 400 bad request,
or an HTTP 403 forbidden rejection. -/
inductive ApiResult (α : Type) where
  | ok (body : α)
  | badRequest (msg : String)
  | forbidden
deriving DecidableEq

/-- Modelled from the spec: the catalog `contains_content_items` endpoint body
once authorization has passed — HTTP 400 when no content keys are given,
otherwise a successful response carrying the containment answer. -/
def contains_content_items_view (c : EnterpriseCatalog) (keys : List String) : ApiResult Bool :=
  if keys.isEmpty then ApiResult.badRequest "No content keys provided"
  else ApiResult.ok (contains_content_items c keys)

/-- The catalogs of the given enterprise customer. -/
def customer_catalogs (catalogs : List EnterpriseCatalog) (enterprise_uuid : Nat) :
    List EnterpriseCatalog :=
  catalogs.filter (fun c => c.enterprise_uuid == enterprise_uuid)

/-- Modelled from the spec: the enterprise-customer `contains_content_items`
resolution (`EnterpriseCustomerViewSet`, not present in the sources) — true
exactly when at least one of the given catalogs contains the requested keys. -/
def enterprise_contains_content_items (catalogs : List EnterpriseCatalog)
    (keys : List String) : Bool :=
  catalogs.any (fun c => contains_content_items c keys)

/-- Modelled from the spec: the two catalog roles of the role- and
tenant-scoped authorization layer. -/
inductive Role where
  | catalog_admin
  | catalog_learner
deriving DecidableEq

/-- Modelled from the spec: a role grant scoped to an enterprise tenant; a
`none` context is the wildcard grant covering every enterprise. -/
structure RoleGrant where
  role : Role
  context : Option Nat
deriving DecidableEq

/-- Modelled from the spec: a requesting user — superuser/staff flags,
the roles carried implicitly by the JWT, and the roles assigned explicitly in
the database. -/
structure User where
  is_superuser : Bool
  is_staff : Bool
  jwt_roles : List RoleGrant
  db_roles : List RoleGrant
deriving DecidableEq

/-- Whether a grant confers the given role for the given enterprise. -/
def grantMatches (g : RoleGrant) (role : Role) (enterprise_uuid : Nat) : Bool :=
  g.role == role && (g.context == none || g.context == some enterprise_uuid)

/-- Modelled from the spec: the access decision of the authorization layer —
superusers always pass, otherwise some implicit (JWT) or explicit (database)
grant must confer the required role for the enterprise that owns the
addressed resource. -/
def has_access (u : User) (role : Role) (enterprise_uuid : Nat) : Bool :=
  u.is_superuser
    || u.jwt_roles.any (fun g => grantMatches g role enterprise_uuid)
    || u.db_roles.any (fun g => grantMatches g role enterprise_uuid)

/-- The fields a PATCH request may supply; `none` means the field was not part
of the request body. -/
structure CatalogPatchData where
  title : Option String
  catalog_query : Option (Option CatalogQuery)
  enterprise_uuid : Option Nat
  enabled_course_modes : Option (List String)
  publish_audit_enrollment_urls : Option Bool
deriving DecidableEq

/-- Modelled from the spec: applying a PATCH — each supplied field overwrites
the stored one, each omitted field keeps its previous value. -/
def applyPatch (c : EnterpriseCatalog) (p : CatalogPatchData) : EnterpriseCatalog :=
  { c with
    title := p.title.getD c.title,
    catalog_query := p.catalog_query.getD c.catalog_query,
    enterprise_uuid := p.enterprise_uuid.getD c.enterprise_uuid,
    enabled_course_modes := p.enabled_course_modes.getD c.enabled_course_modes,
    publish_audit_enrollment_urls :=
      p.publish_audit_enrollment_urls.getD c.publish_audit_enrollment_urls }

/-- The full body of a POST or PUT request on the catalog CRUD endpoint. -/
structure CatalogWriteData where
  title : String
  enterprise_uuid : Nat
  catalog_query : Option CatalogQuery
  enabled_course_modes : List String
  publish_audit_enrollment_urls : Bool
deriving DecidableEq

/-- Modelled from the spec: applying a PUT — every writable field is replaced
by the request body; the catalog uuid is preserved. -/
def applyPut (c : EnterpriseCatalog) (d : CatalogWriteData) : EnterpriseCatalog :=
  { c with
    title := d.title,
    enterprise_uuid := d.enterprise_uuid,
    catalog_query := d.catalog_query,
    enabled_course_modes := d.enabled_course_modes,
    publish_audit_enrollment_urls := d.publish_audit_enrollment_urls }

/-- Modelled from the spec: the catalog detail endpoint — catalog admin access
for the catalog's enterprise is required, a mismatching tenant context is
rejected with HTTP 403. -/
def catalog_detail (u : User) (c : EnterpriseCatalog) : ApiResult EnterpriseCatalog :=
  if has_access u Role.catalog_admin c.enterprise_uuid then ApiResult.ok c
  else ApiResult.forbidden

/-- Modelled from the spec: the catalog PATCH endpoint. -/
def catalog_patch (u : User) (c : EnterpriseCatalog) (p : CatalogPatchData) :
    ApiResult EnterpriseCatalog :=
  if has_access u Role.catalog_admin c.enterprise_uuid then ApiResult.ok (applyPatch c p)
  else ApiResult.forbidden

/-- Modelled from the spec: the catalog PUT endpoint. -/
def catalog_put (u : User) (c : EnterpriseCatalog) (d : CatalogWriteData) :
    ApiResult EnterpriseCatalog :=
  if has_access u Role.catalog_admin c.enterprise_uuid then ApiResult.ok (applyPut c d)
  else ApiResult.forbidden

/-- Modelled from the spec: the catalog POST (create) endpoint — the required
admin role is checked against the enterprise named in the request body. -/
def catalog_post (u : User) (newUuid : Nat) (d : CatalogWriteData) :
    ApiResult EnterpriseCatalog :=
  if has_access u Role.catalog_admin d.enterprise_uuid then
    ApiResult.ok
      { uuid := newUuid, enterprise_uuid := d.enterprise_uuid, title := d.title,
        catalog_query := d.catalog_query, content := [],
        enabled_course_modes := d.enabled_course_modes,
        publish_audit_enrollment_urls := d.publish_audit_enrollment_urls, modified := 0 }
  else ApiResult.forbidden

/-- Modelled from the spec: the catalog `contains_content_items` endpoint —
catalog learner access for the catalog's enterprise is required. -/
def catalog_contains_view (u : User) (c : EnterpriseCatalog) (keys : List String) :
    ApiResult Bool :=
  if has_access u Role.catalog_learner c.enterprise_uuid then contains_content_items_view c keys
  else ApiResult.forbidden

/-- Modelled from the spec: the enterprise-customer `contains_content_items`
endpoint — catalog learner access for the addressed enterprise is required,
then the answer is resolved over that enterprise's catalogs. -/
def enterprise_customer_contains_view (u : User) (catalogs : List EnterpriseCatalog)
    (enterprise_uuid : Nat) (keys : List String) : ApiResult Bool :=
  if has_access u Role.catalog_learner enterprise_uuid then
    if keys.isEmpty then ApiResult.badRequest "No content keys provided"
    else ApiResult.ok (enterprise_contains_content_items (customer_catalogs catalogs enterprise_uuid) keys)
  else ApiResult.forbidden

/-- Whether a grant carries the catalog admin role (for any tenant). -/
def isCatalogAdminGrant (g : RoleGrant) : Bool :=
  g.role == Role.catalog_admin

/-- Modelled from the spec: the enterprise-catalog list endpoint — superusers
see every catalog; staff users and holders of the catalog admin role get a
successful response listing exactly the catalogs of the enterprises their
admin role covers (every catalog for a wildcard grant, an empty list when the
role covers none); everyone else is rejected. -/
def list_catalogs (u : User) (catalogs : List EnterpriseCatalog) :
    ApiResult (List EnterpriseCatalog) :=
  if u.is_superuser then ApiResult.ok catalogs
  else if u.is_staff || u.jwt_roles.any isCatalogAdminGrant || u.db_roles.any isCatalogAdminGrant then
    ApiResult.ok (catalogs.filter (fun c => has_access u Role.catalog_admin c.enterprise_uuid))
  else ApiResult.forbidden

/-- A concrete catalog query used by the witnesses. -/
def sampleQuery : CatalogQuery := ⟨1⟩

/-- A concrete course record (with one course run listed) used by the witnesses. -/
def sampleCourse : ContentMetadata := ⟨"cA", none, ["r1"], 5⟩

/-- A concrete catalog of enterprise 10 used by the witnesses. -/
def sampleCatalog : EnterpriseCatalog :=
  ⟨1, 10, "Catalog A", some sampleQuery, [sampleCourse], ["verified"], false, 3⟩

/-- A concrete catalog with no associated catalog query, used by the witnesses. -/
def sampleNoQueryCatalog : EnterpriseCatalog :=
  ⟨2, 10, "Catalog B", none, [sampleCourse], [], false, 3⟩

/-- A concrete catalog admin of enterprise 99 (the wrong tenant for
`sampleCatalog`), used by the witnesses. -/
def sampleWrongContextUser : User :=
  ⟨false, false, [⟨Role.catalog_admin, some 99⟩], []⟩

/-- A concrete superuser used by the witnesses. -/
def sampleSuperuser : User := ⟨true, true, [], []⟩

/-- C1: the `generate_diff` response partitions keys into exactly three
buckets — a key appears (as a content key) in `items_found` exactly when it is
both in the catalog and requested, in `items_not_found` exactly when it is
requested but absent from the catalog, and in `items_not_included` exactly
when it is a catalog key that was not requested; and a request with an empty
key list returns the whole catalog under `items_not_included` with the other
two buckets empty. -/
theorem generate_diff_partitions_buckets (c : EnterpriseCatalog) (cm : Nat)
    (keys : List String) :
    (∀ k, k ∈ (generate_diff c cm keys).items_found.map DiffItemFound.content_key ↔
      k ∈ catalogKeys c ∧ k ∈ keys) ∧
    (∀ k, k ∈ (generate_diff c cm keys).items_not_found ↔ k ∈ keys ∧ k ∉ catalogKeys c) ∧
    (∀ k, k ∈ (generate_diff c cm keys).items_not_included ↔ k ∈ catalogKeys c ∧ k ∉ keys) ∧
    (keys = [] → (generate_diff c cm keys).items_found = [] ∧
      (generate_diff c cm keys).items_not_found = [] ∧
      (generate_diff c cm keys).items_not_included = catalogKeys c) := by
  refine ⟨?_, ?_, ?_, ?_⟩
  · intro k
    constructor
    · intro hk
      simp only [generate_diff, List.map_map, List.mem_map, Function.comp,
        List.mem_filter, decide_eq_true_eq] at hk
      obtain ⟨m, ⟨hm, hkeys⟩, rfl⟩ := hk
      exact ⟨List.mem_map_of_mem _ hm, hkeys⟩
    · rintro ⟨hcat, hkeys⟩
      obtain ⟨m, hm, rfl⟩ := List.mem_map.mp hcat
      simp only [generate_diff, List.map_map, List.mem_map, Function.comp,
        List.mem_filter, decide_eq_true_eq]
      exact ⟨m, ⟨hm, hkeys⟩, rfl⟩
  · intro k
    simp [generate_diff, List.mem_filter]
  · intro k
    simp [generate_diff, List.mem_filter]
  · rintro rfl
    refine ⟨?_, rfl, ?_⟩
    · simp [generate_diff]
    · simp [generate_diff]

/-- Witness for C1: on `sampleCatalog` with an empty requested key list, the
whole catalog comes back under `items_not_included` and the other buckets are
empty. -/
theorem generate_diff_partitions_buckets_witness :
    (generate_diff sampleCatalog 0 []).items_found = [] ∧
    (generate_diff sampleCatalog 0 []).items_not_found = [] ∧
    (generate_diff sampleCatalog 0 []).items_not_included = catalogKeys sampleCatalog :=
  (generate_diff_partitions_buckets sampleCatalog 0 []).2.2.2 rfl

/-- C2: every entry of `items_found` stems from a matched catalog content
record, and its `date_updated` is the most recent of the catalog's, the
customer record's and the content record's modification times — it is the
maximum of the three, hence bounded below by each, and equal to whichever
source is latest. -/
theorem generate_diff_date_updated_is_latest (c : EnterpriseCatalog) (cm : Nat)
    (keys : List String) (it : DiffItemFound)
    (h : it ∈ (generate_diff c cm keys).items_found) :
    it.content_key ∈ keys ∧
    ∃ m ∈ c.content, m.content_key = it.content_key ∧
      it.date_updated = max c.modified (max cm m.modified) ∧
      c.modified ≤ it.date_updated ∧ cm ≤ it.date_updated ∧ m.modified ≤ it.date_updated ∧
      (it.date_updated = c.modified ∨ it.date_updated = cm ∨ it.date_updated = m.modified) := by
  simp only [generate_diff, List.mem_map, List.mem_filter, decide_eq_true_eq] at h
  obtain ⟨m, ⟨hm, hkeys⟩, rfl⟩ := h
  refine ⟨hkeys, m, hm, rfl, rfl, ?_, ?_, ?_, ?_⟩
  · exact le_max_left _ _
  · exact le_max_of_le_right (le_max_left _ _)
  · exact le_max_of_le_right (le_max_right _ _)
  · rcases max_choice c.modified (max cm m.modified) with h1 | h1
    · exact Or.inl (by simpa [matchedDateUpdated] using h1)
    · rcases max_choice cm m.modified with h2 | h2
      · refine Or.inr (Or.inl ?_)
        simp only [matchedDateUpdated]
        rw [h1, h2]
      · refine Or.inr (Or.inr ?_)
        simp only [matchedDateUpdated]
        rw [h1, h2]

/-- Witness for C2: on `sampleCatalog` (modified at 3) with customer record
modified at 4 and content record modified at 5, the matched entry for key
`cA` carries `date_updated` 5, the content record's time, which is the latest
of the three. -/
theorem generate_diff_date_updated_is_latest_witness :
    (⟨"cA", 5⟩ : DiffItemFound) ∈ (generate_diff sampleCatalog 4 ["cA"]).items_found ∧
    ("cA" ∈ ["cA"] ∧
      ∃ m ∈ sampleCatalog.content, m.content_key = "cA" ∧
        5 = max sampleCatalog.modified (max 4 m.modified) ∧
        sampleCatalog.modified ≤ 5 ∧ 4 ≤ 5 ∧ m.modified ≤ 5 ∧
        (5 = sampleCatalog.modified ∨ 5 = 4 ∨ 5 = m.modified)) :=
  ⟨by decide, generate_diff_date_updated_is_latest sampleCatalog 4 ["cA"] ⟨"cA", 5⟩ (by decide)⟩

/-- Unfolding of per-key catalog containment: contained exactly when the
catalog has a query and some content record includes the key by the
hierarchy walk. -/
theorem catalog_contains_key_eq_true_iff (c : EnterpriseCatalog) (key : String) :
    catalog_contains_key c key = true ↔
      c.catalog_query.isSome = true ∧ ∃ m ∈ c.content,
        (m.content_key = key ∨ m.parent_content_key = some key ∨ key ∈ m.course_run_keys) := by
  simp [catalog_contains_key, contentIncludesKey, List.any_eq_true, or_assoc]

/-- C3: the catalog `contains_content_items` resolution walks the
parent/child hierarchy — a requested key that is itself in the catalog, or is
the parent content key of some catalog content, or is a course run listed
under a course in the catalog, is contained; a key related to no catalog
content in any of these ways is not contained. -/
theorem contains_content_items_hierarchy (c : EnterpriseCatalog)
    (hq : c.catalog_query.isSome = true) (key : String) :
    (key ∈ catalogKeys c → catalog_contains_key c key = true) ∧
    ((∃ m ∈ c.content, m.parent_content_key = some key) → catalog_contains_key c key = true) ∧
    ((∃ m ∈ c.content, key ∈ m.course_run_keys) → catalog_contains_key c key = true) ∧
    (key ∉ catalogKeys c →
      (∀ m ∈ c.content, m.parent_content_key ≠ some key ∧ key ∉ m.course_run_keys) →
      catalog_contains_key c key = false) := by
  refine ⟨?_, ?_, ?_, ?_⟩
  · intro hk
    obtain ⟨m, hm, hkey⟩ := List.mem_map.mp hk
    exact (catalog_contains_key_eq_true_iff c key).mpr ⟨hq, m, hm, Or.inl hkey⟩
  · rintro ⟨m, hm, hp⟩
    exact (catalog_contains_key_eq_true_iff c key).mpr ⟨hq, m, hm, Or.inr (Or.inl hp)⟩
  · rintro ⟨m, hm, hr⟩
    exact (catalog_contains_key_eq_true_iff c key).mpr ⟨hq, m, hm, Or.inr (Or.inr hr)⟩
  · intro hnk hall
    cases hcc : catalog_contains_key c key
    · rfl
    · obtain ⟨-, m, hm, hdis⟩ := (catalog_contains_key_eq_true_iff c key).mp hcc
      rcases hdis with h | h | h
      · exact absurd (h ▸ List.mem_map_of_mem ContentMetadata.content_key hm) hnk
      · exact absurd h (hall m hm).1
      · exact absurd h (hall m hm).2

/-- Witness for C3: `sampleCatalog` has a catalog query, the key `cA` is
directly in the catalog, and the containment resolution accepts it. -/
theorem contains_content_items_hierarchy_witness :
    sampleCatalog.catalog_query.isSome = true ∧
    "cA" ∈ catalogKeys sampleCatalog ∧
    catalog_contains_key sampleCatalog "cA" = true :=
  ⟨rfl, by decide, (contains_content_items_hierarchy sampleCatalog rfl "cA").1 (by decide)⟩

/-- C9: a catalog with no associated catalog query yields a successful
`contains_content_items` response whose answer is `false`, and every
requested key resolves to not-contained rather than an error. -/
theorem contains_content_items_no_catalog_query (c : EnterpriseCatalog)
    (hq : c.catalog_query = none) (keys : List String) (hk : keys ≠ []) :
    contains_content_items_view c keys = ApiResult.ok false ∧
    ∀ k ∈ keys, catalog_contains_key c k = false := by
  have hkey : ∀ k, catalog_contains_key c k = false := by
    intro k
    simp [catalog_contains_key, hq]
  refine ⟨?_, fun k _ => hkey k⟩
  cases keys with
  | nil => exact absurd rfl hk
  | cons a l =>
    simp [contains_content_items_view, contains_content_items, List.all_cons, hkey]

/-- Witness for C9: `sampleNoQueryCatalog` carries content but no catalog
query, and the endpoint answers `ok false` for the key `cA`. -/
theorem contains_content_items_no_catalog_query_witness :
    sampleNoQueryCatalog.catalog_query = none ∧ (["cA"] : List String) ≠ [] ∧
    (contains_content_items_view sampleNoQueryCatalog ["cA"] = ApiResult.ok false ∧
      ∀ k ∈ ["cA"], catalog_contains_key sampleNoQueryCatalog k = false) :=
  ⟨rfl, by decide,
    contains_content_items_no_catalog_query sampleNoQueryCatalog rfl ["cA"] (by decide)⟩

/-- Unfolding of the enterprise-level containment answer as an existential
over catalogs. -/
theorem enterprise_contains_eq_true_iff (catalogs : List EnterpriseCatalog)
    (keys : List String) :
    enterprise_contains_content_items catalogs keys = true ↔
      ∃ c ∈ catalogs, contains_content_items c keys = true := by
  simp [enterprise_contains_content_items, List.any_eq_true]

/-- C7: the enterprise-customer containment answer over the enterprise's
catalogs is `true` exactly when at least one catalog of that enterprise
contains the requested keys, and `false` exactly when the content is in none
of the enterprise's catalogs. -/
theorem enterprise_customer_contains_iff (catalogs : List EnterpriseCatalog) (e : Nat)
    (keys : List String) :
    (enterprise_contains_content_items (customer_catalogs catalogs e) keys = true ↔
      ∃ c ∈ catalogs, c.enterprise_uuid = e ∧ contains_content_items c keys = true) ∧
    (enterprise_contains_content_items (customer_catalogs catalogs e) keys = false ↔
      ∀ c ∈ catalogs, c.enterprise_uuid = e → contains_content_items c keys = false) := by
  have h1 : enterprise_contains_content_items (customer_catalogs catalogs e) keys = true ↔
      ∃ c ∈ catalogs, c.enterprise_uuid = e ∧ contains_content_items c keys = true := by
    rw [enterprise_contains_eq_true_iff]
    constructor
    · rintro ⟨c, hc, hcont⟩
      obtain ⟨hmem, he⟩ := List.mem_filter.mp hc
      exact ⟨c, hmem, by simpa using he, hcont⟩
    · rintro ⟨c, hmem, he, hcont⟩
      exact ⟨c, List.mem_filter.mpr ⟨hmem, by simpa using he⟩, hcont⟩
  refine ⟨h1, ?_, ?_⟩
  · intro hfalse c hmem he
    cases hcc : contains_content_items c keys
    · rfl
    · have htrue := h1.mpr ⟨c, hmem, he, hcc⟩
      rw [hfalse] at htrue
      exact absurd htrue (by simp)
  · intro hall
    cases hcc : enterprise_contains_content_items (customer_catalogs catalogs e) keys
    · rfl
    · obtain ⟨c, hmem, he, hcont⟩ := h1.mp hcc
      rw [hall c hmem he] at hcont
      exact absurd hcont (by simp)

/-- C8: a GET request to `generate_diff` carrying more than 100 content keys
is rejected with the HTTP 400 message about the limit. -/
theorem generate_diff_get_max_keys (c : EnterpriseCatalog) (cm : Nat)
    (keys : List String) (h : 100 < keys.length) :
    generate_diff_get c cm keys =
      Except.error "catalog_diff GET requests supports up to 100. If more content keys required, please use a POST body." := by
  simp [generate_diff_get, GENERATE_DIFF_GET_MAX_KEYS, h]

/-- Witness for C8: a GET request with 101 content keys is rejected. -/
theorem generate_diff_get_max_keys_witness :
    100 < (List.replicate 101 "k").length ∧
    generate_diff_get sampleCatalog 0 (List.replicate 101 "k") =
      Except.error "catalog_diff GET requests supports up to 100. If more content keys required, please use a POST body." :=
  ⟨by decide, generate_diff_get_max_keys sampleCatalog 0 (List.replicate 101 "k") (by decide)⟩

/-- A user none of whose JWT grants is scoped to the given enterprise (and
with no database assignments and no superuser flag) has no access there,
whatever role is required. -/
theorem has_access_eq_false_of_wrong_context (u : User) (role : Role) (e : Nat)
    (hsu : u.is_superuser = false) (hdb : u.db_roles = [])
    (hctx : ∀ g ∈ u.jwt_roles, g.context ≠ none ∧ g.context ≠ some e) :
    has_access u role e = false := by
  have hjwt : u.jwt_roles.any (fun g => grantMatches g role e) = false := by
    cases hany : u.jwt_roles.any (fun g => grantMatches g role e)
    · rfl
    · obtain ⟨g, hg, hmatch⟩ := List.any_eq_true.mp hany
      simp [grantMatches] at hmatch
      rcases hmatch.2 with h | h
      · exact absurd h (hctx g hg).1
      · exact absurd h (hctx g hg).2
  simp [has_access, hsu, hdb, hjwt]

/-- C4: on every catalog-scoped endpoint — catalog detail, catalog
`contains_content_items`, and enterprise-customer `contains_content_items` —
a user whose JWT enterprise context does not match the enterprise of the
addressed resource (and who has no database role assignment and is no
superuser) is rejected with HTTP 403, even when the grants carry an otherwise
valid catalog role. -/
theorem wrong_jwt_context_forbidden (u : User) (c : EnterpriseCatalog)
    (catalogs : List EnterpriseCatalog) (keys : List String)
    (hsu : u.is_superuser = false) (hdb : u.db_roles = [])
    (hctx : ∀ g ∈ u.jwt_roles, g.context ≠ none ∧ g.context ≠ some c.enterprise_uuid) :
    catalog_detail u c = ApiResult.forbidden ∧
    catalog_contains_view u c keys = ApiResult.forbidden ∧
    enterprise_customer_contains_view u catalogs c.enterprise_uuid keys =
      ApiResult.forbidden := by
  have hadmin :=
    has_access_eq_false_of_wrong_context u Role.catalog_admin c.enterprise_uuid hsu hdb hctx
  have hlearner :=
    has_access_eq_false_of_wrong_context u Role.catalog_learner c.enterprise_uuid hsu hdb hctx
  refine ⟨?_, ?_, ?_⟩ <;>
    simp [catalog_detail, catalog_contains_view, enterprise_customer_contains_view,
      hadmin, hlearner]

/-- Witness for C4: `sampleWrongContextUser` holds the catalog admin role but
only for enterprise 99, and is rejected on all three endpoints addressing
enterprise 10's `sampleCatalog`. -/
theorem wrong_jwt_context_forbidden_witness :
    sampleWrongContextUser.is_superuser = false ∧
    sampleWrongContextUser.db_roles = [] ∧
    (∀ g ∈ sampleWrongContextUser.jwt_roles,
      g.context ≠ none ∧ g.context ≠ some sampleCatalog.enterprise_uuid) ∧
    (catalog_detail sampleWrongContextUser sampleCatalog = ApiResult.forbidden ∧
      catalog_contains_view sampleWrongContextUser sampleCatalog ["cA"] = ApiResult.forbidden ∧
      enterprise_customer_contains_view sampleWrongContextUser [sampleCatalog]
        sampleCatalog.enterprise_uuid ["cA"] = ApiResult.forbidden) :=
  ⟨rfl, rfl, by decide,
    wrong_jwt_context_forbidden sampleWrongContextUser sampleCatalog [sampleCatalog] ["cA"]
      rfl rfl (by decide)⟩

/-- A non-superuser none of whose grants carries the catalog admin role has no
admin access to any enterprise. -/
theorem has_access_admin_eq_false_of_no_admin_grant (u : User) (e : Nat)
    (hsu : u.is_superuser = false)
    (hj : ∀ g ∈ u.jwt_roles, g.role ≠ Role.catalog_admin)
    (hd : ∀ g ∈ u.db_roles, g.role ≠ Role.catalog_admin) :
    has_access u Role.catalog_admin e = false := by
  have hjwt : u.jwt_roles.any (fun g => grantMatches g Role.catalog_admin e) = false := by
    cases hany : u.jwt_roles.any (fun g => grantMatches g Role.catalog_admin e)
    · rfl
    · obtain ⟨g, hg, hmatch⟩ := List.any_eq_true.mp hany
      simp [grantMatches] at hmatch
      exact absurd hmatch.1 (hj g hg)
  have hdb : u.db_roles.any (fun g => grantMatches g Role.catalog_admin e) = false := by
    cases hany : u.db_roles.any (fun g => grantMatches g Role.catalog_admin e)
    · rfl
    · obtain ⟨g, hg, hmatch⟩ := List.any_eq_true.mp hany
      simp [grantMatches] at hmatch
      exact absurd hmatch.1 (hd g hg)
  simp [has_access, hsu, hjwt, hdb]

/-- C5: the enterprise-catalog list endpoint returns every catalog to
superusers and to admins holding the wildcard role; it returns to staff
callers exactly the catalogs of the enterprises their catalog admin role
covers; and a staff user holding no catalog admin grant at all gets a
successful response with an empty list. -/
theorem list_catalogs_by_role (u : User) (catalogs : List EnterpriseCatalog) :
    (u.is_superuser = true → list_catalogs u catalogs = ApiResult.ok catalogs) ∧
    (u.is_superuser = false → (⟨Role.catalog_admin, none⟩ : RoleGrant) ∈ u.jwt_roles →
      list_catalogs u catalogs = ApiResult.ok catalogs) ∧
    (u.is_superuser = false → u.is_staff = true →
      ∃ l, list_catalogs u catalogs = ApiResult.ok l ∧
        ∀ c, c ∈ l ↔ c ∈ catalogs ∧ has_access u Role.catalog_admin c.enterprise_uuid = true) ∧
    (u.is_superuser = false → u.is_staff = true →
      (∀ g ∈ u.jwt_roles, g.role ≠ Role.catalog_admin) →
      (∀ g ∈ u.db_roles, g.role ≠ Role.catalog_admin) →
      list_catalogs u catalogs = ApiResult.ok []) := by
  refine ⟨?_, ?_, ?_, ?_⟩
  · intro h
    simp [list_catalogs, h]
  · intro hsu hmem
    have hany : u.jwt_roles.any isCatalogAdminGrant = true :=
      List.any_eq_true.mpr ⟨⟨Role.catalog_admin, none⟩, hmem, rfl⟩
    have hacc : ∀ c ∈ catalogs, has_access u Role.catalog_admin c.enterprise_uuid = true := by
      intro c _
      have hmatch : u.jwt_roles.any
          (fun g => grantMatches g Role.catalog_admin c.enterprise_uuid) = true :=
        List.any_eq_true.mpr ⟨⟨Role.catalog_admin, none⟩, hmem, rfl⟩
      simp [has_access, hmatch]
    simp [list_catalogs, hsu, hany, List.filter_eq_self.mpr hacc]
  · intro hsu hst
    refine ⟨catalogs.filter (fun c => has_access u Role.catalog_admin c.enterprise_uuid),
      by simp [list_catalogs, hsu, hst], ?_⟩
    intro c
    simp [List.mem_filter]
  · intro hsu hst hj hd
    have hnil :
        catalogs.filter (fun c => has_access u Role.catalog_admin c.enterprise_uuid) = [] := by
      rw [List.filter_eq_nil_iff]
      intro c _
      simp [has_access_admin_eq_false_of_no_admin_grant u c.enterprise_uuid hsu hj hd]
    simp [list_catalogs, hsu, hst, hnil]

/-- Witness for C5: the superuser sees the full catalog list. -/
theorem list_catalogs_by_role_witness :
    sampleSuperuser.is_superuser = true ∧
    list_catalogs sampleSuperuser [sampleCatalog] = ApiResult.ok [sampleCatalog] :=
  ⟨rfl, (list_catalogs_by_role sampleSuperuser [sampleCatalog]).1 rfl⟩

/-- Moving a single grant between the implicit (JWT) and the explicit
(database) role store does not change the access decision. -/
theorem has_access_jwt_db_swap (su st : Bool) (g : RoleGrant) (role : Role) (e : Nat) :
    has_access ⟨su, st, [g], []⟩ role e = has_access ⟨su, st, [], [g]⟩ role e := by
  simp [has_access, Bool.or_comm]

/-- C6: a user granted the required role implicitly through the JWT context
and a user granted the same role explicitly through a database role
assignment receive the same response from every role-protected endpoint —
catalog detail, patch, put, post and `contains_content_items`. -/
theorem implicit_explicit_equivalent (su st : Bool) (g : RoleGrant) (c : EnterpriseCatalog)
    (p : CatalogPatchData) (d : CatalogWriteData) (newUuid : Nat) (keys : List String) :
    catalog_detail ⟨su, st, [g], []⟩ c = catalog_detail ⟨su, st, [], [g]⟩ c ∧
    catalog_patch ⟨su, st, [g], []⟩ c p = catalog_patch ⟨su, st, [], [g]⟩ c p ∧
    catalog_put ⟨su, st, [g], []⟩ c d = catalog_put ⟨su, st, [], [g]⟩ c d ∧
    catalog_post ⟨su, st, [g], []⟩ newUuid d = catalog_post ⟨su, st, [], [g]⟩ newUuid d ∧
    catalog_contains_view ⟨su, st, [g], []⟩ c keys =
      catalog_contains_view ⟨su, st, [], [g]⟩ c keys := by
  refine ⟨?_, ?_, ?_, ?_, ?_⟩ <;>
    simp [catalog_detail, catalog_patch, catalog_put, catalog_post, catalog_contains_view,
      has_access_jwt_db_swap]

/-- C10: a PATCH supplying only the title changes only the title — the
catalog query, enterprise uuid, enabled course modes and audit enrollment
url publication flag all keep their previous values. -/
theorem patch_title_only_changes_only_title (c : EnterpriseCatalog) (t : String) :
    (applyPatch c ⟨some t, none, none, none, none⟩).title = t ∧
    (applyPatch c ⟨some t, none, none, none, none⟩).catalog_query = c.catalog_query ∧
    (applyPatch c ⟨some t, none, none, none, none⟩).enterprise_uuid = c.enterprise_uuid ∧
    (applyPatch c ⟨some t, none, none, none, none⟩).enabled_course_modes =
      c.enabled_course_modes ∧
    (applyPatch c ⟨some t, none, none, none, none⟩).publish_audit_enrollment_urls =
      c.publish_audit_enrollment_urls ∧
    applyPatch c ⟨some t, none, none, none, none⟩ = { c with title := t } :=
  ⟨rfl, rfl, rfl, rfl, rfl, rfl⟩
